import Mathlib

/-!
Verification of the trajan XYZ trajectory library (Rust) against its
natural-language specification.  The Rust sources are shallowly embedded:
pure functions become Lean functions, the buffered line reader becomes
explicit state passing over a list of line-read outcomes, fallible code
returns `Except`.  The generic scalar parameter `T : FromStr + Display`
of the Rust code is embedded as a `Scalar` bundle of a parse function,
the error kind its `From<T::Err>` conversion produces, and the rendering
used by the `{:.16}` format.  Floating point is idealized as exact
decimal rationals (`ℚ`): the inputs appearing in the claims ("1.0",
"2.0", ...) are exactly representable in f32/f64, where this
idealization is faithful.
-/

namespace Trajan

deriving instance DecidableEq for Except

/-! ### coordinate.rs -/

/-- `CoordKind` from coordinate.rs: which kind of vector a file contains. -/
inductive CoordKind : Type where
  | position
  | velocity
  | force
deriving DecidableEq

/-- `Coordinate<T>` from coordinate.rs: a tagged 3-component vector. -/
inductive Coordinate (T : Type) : Type where
  | position (x y z : T)
  | velocity (x y z : T)
  | force (x y z : T)
deriving DecidableEq

/-- `Coordinate::build(kind, x, y, z)` from coordinate.rs. -/
def Coordinate.build {T : Type} (kind : CoordKind) (x y z : T) : Coordinate T :=
  match kind with
  | CoordKind.position => Coordinate.position x y z
  | CoordKind.velocity => Coordinate.velocity x y z
  | CoordKind.force => Coordinate.force x y z

/-- `Coordinate::which` from coordinate.rs. -/
def Coordinate.which {T : Type} : Coordinate T → CoordKind
  | Coordinate.position _ _ _ => CoordKind.position
  | Coordinate.velocity _ _ _ => CoordKind.velocity
  | Coordinate.force _ _ _ => CoordKind.force

/-- `Coordinate::x` from coordinate.rs: the x component regardless of the tag. -/
def Coordinate.x {T : Type} : Coordinate T → T
  | Coordinate.position x _ _ => x
  | Coordinate.velocity x _ _ => x
  | Coordinate.force x _ _ => x

/-- `Coordinate::y` from coordinate.rs. -/
def Coordinate.y {T : Type} : Coordinate T → T
  | Coordinate.position _ y _ => y
  | Coordinate.velocity _ y _ => y
  | Coordinate.force _ y _ => y

/-- `Coordinate::z` from coordinate.rs. -/
def Coordinate.z {T : Type} : Coordinate T → T
  | Coordinate.position _ _ z => z
  | Coordinate.velocity _ _ z => z
  | Coordinate.force _ _ z => z

/-- The `Index<usize>` impl from coordinate.rs, with the panic on an
out-of-range index embedded as `none`. -/
def Coordinate.index {T : Type} (c : Coordinate T) : Nat → Option T
  | 0 => some c.x
  | 1 => some c.y
  | 2 => some c.z
  | _ => none

/-! ### error.rs -/

/-- `ErrorKind` from error.rs: the closed error taxonomy. -/
inductive ErrorKind : Type where
  | io
  | parseIntError
  | parseFloatError
  | format (error : String)
deriving DecidableEq

/-- Whether an `ErrorKind` is the `Format` variant. -/
def ErrorKind.isFormat : ErrorKind → Bool
  | ErrorKind.format _ => true
  | _ => false

/-- `Error` from error.rs.  The `failure::Context` wrapper adds only a
cause/backtrace; observably (via `Error::kind`) an error is its kind. -/
structure Error : Type where
  kind : ErrorKind
deriving DecidableEq

/-- Modelled from the spec: `Error::invalid_format` is called by
`XYZParticle::from_line` (xyz.rs) but its definition is not among the
provided sources.  Per the spec it produces the `InvalidFormat{detail}`
class of error — the `ErrorKind::Format{error}` variant of error.rs —
carrying the given message. -/
def Error.invalid_format (msg : String) : Error :=
  Error.mk (ErrorKind.format msg)

/-! ### Models of the Rust std string primitives used by the sources.
These are list-of-characters models of `str::split_whitespace`,
`str::trim`, `usize::from_str`, decimal float parsing and the
`{:8}` / `{:.16}` formatting, restricted to the ASCII inputs the XYZ
format deals in. -/

/-- Accumulator-passing worker for `split_whitespace`: splits at runs of
whitespace, yielding no empty tokens. -/
def splitWSAux : List Char → List Char → List (List Char)
  | [], acc => if acc = [] then [] else [acc.reverse]
  | c :: rest, acc =>
    if c.isWhitespace then
      if acc = [] then splitWSAux rest [] else acc.reverse :: splitWSAux rest []
    else splitWSAux rest (c :: acc)

/-- Model of Rust `str::split_whitespace` (ASCII whitespace). -/
def splitWhitespace (s : String) : List String :=
  (splitWSAux s.data []).map (fun l => String.mk l)

/-- Model of Rust `str::trim`: drop whitespace from both ends. -/
def trimChars (l : List Char) : List Char :=
  ((l.dropWhile Char.isWhitespace).reverse.dropWhile Char.isWhitespace).reverse

/-- Model of Rust `str::trim` on `String`. -/
def strTrim (s : String) : String :=
  String.mk (trimChars s.data)

/-- Numeric value of a decimal digit character. -/
def digitVal (c : Char) : Option Nat :=
  if c.isDigit then some (c.toNat - '0'.toNat) else none

/-- Left fold of decimal digits onto an accumulator; fails at the first
non-digit character. -/
def digitsGo : List Char → Nat → Option Nat
  | [], acc => some acc
  | c :: rest, acc =>
    match digitVal c with
    | some d => digitsGo rest (acc * 10 + d)
    | none => none

/-- Parse a non-empty all-digit string as a natural number. -/
def digitsToNat : List Char → Option Nat
  | [] => none
  | l => digitsGo l 0

/-- Model of Rust `usize::from_str` (64-bit): an optional leading `+`,
then one or more decimal digits; overflow past `2^64 - 1` fails. -/
def parseUsize (s : String) : Option Nat :=
  let body : Option Nat :=
    match s.data with
    | [] => none
    | c :: rest => if c = '+' then digitsToNat rest else digitsToNat s.data
  match body with
  | some n => if n < 2 ^ 64 then some n else none
  | none => none

/-- Fuel-based worker printing the decimal digits of a natural number
(most significant first) onto `acc`.  Structural in the fuel so that it
reduces definitionally; `natToDigits` supplies enough fuel. -/
def natToDigitsAux : Nat → Nat → List Char → List Char
  | 0, _, acc => acc
  | fuel + 1, n, acc =>
    if n < 10 then Nat.digitChar n :: acc
    else natToDigitsAux fuel (n / 10) (Nat.digitChar (n % 10) :: acc)

/-- Decimal digits of a natural number, most significant first. -/
def natToDigits (n : Nat) : List Char :=
  natToDigitsAux (n + 1) n []

/-- Model of Rust `usize::to_string` / `Display` for unsigned integers. -/
def natRepr (n : Nat) : String :=
  String.mk (natToDigits n)

/-- Reference version of the digit printer, recursive in the value; used
in proofs, where `natToDigitsAux` is bridged to it. -/
def decDigits (n : Nat) : List Char :=
  if h : n < 10 then [Nat.digitChar n]
  else decDigits (n / 10) ++ [Nat.digitChar (n % 10)]
decreasing_by exact Nat.div_lt_self (by omega) (by omega)

/-- Build the rational `m / d` in lowest terms by dividing out the gcd.
Returns `0` when `d = 0` (never reached by callers).  This avoids the
`irreducible` arithmetic of `Rat` so that parses evaluate by `decide`. -/
def ratMk (m : Int) (d : Nat) : ℚ :=
  let g : Nat := Nat.gcd m.natAbs d
  if h : d / g ≠ 0 ∧ Nat.gcd (m / (g : Int)).natAbs (d / g) = 1 then
    Rat.mk' (m / (g : Int)) (d / g) h.1 h.2
  else 0

/-- Scan an unsigned decimal literal `digits` or `digits.digits`,
returning numerator and denominator (a power of ten). -/
def decScan (l : List Char) : Option (Nat × Nat) :=
  let ip := l.takeWhile (fun c => c ≠ '.')
  match l.dropWhile (fun c => c ≠ '.') with
  | [] => (digitsToNat ip).map (fun n => (n, 1))
  | _ :: frac =>
    match digitsToNat ip, digitsToNat frac with
    | some n, some f => some (n * 10 ^ frac.length + f, 10 ^ frac.length)
    | _, _ => none

/-- Modelled from the spec: Rust `f64::from_str` / `f32::from_str`
(collaborator std behavior), idealized to exact decimal rationals and
restricted to the literal forms `[+|-] digits [. digits]` that the XYZ
format exercises. -/
def decParseQ (s : String) : Option ℚ :=
  match s.data with
  | [] => none
  | c :: rest =>
    if c = '-' then (decScan rest).map (fun p => ratMk (-(p.1 : Int)) p.2)
    else if c = '+' then (decScan rest).map (fun p => ratMk (p.1 : Int) p.2)
    else (decScan (c :: rest)).map (fun p => ratMk (p.1 : Int) p.2)

/-- Pad a digit string with leading zeros up to width `k`. -/
def padZeros (k : Nat) (l : List Char) : List Char :=
  List.replicate (k - l.length) '0' ++ l

/-- Modelled from the spec: the `{:.16}` fixed-precision rendering of the
scalar (collaborator std behavior), idealized to exact decimal rationals:
sign, integer part, `.`, exactly 16 fraction digits.  It truncates toward
zero beyond 16 places; on values representable in 16 decimal places —
the only ones the round-trip property speaks about — it is exact. -/
def fmtQ16 (q : ℚ) : String :=
  let n : Nat := q.num.natAbs * 10 ^ 16 / q.den
  (if q.num < 0 then "-" else "") ++ natRepr (n / 10 ^ 16) ++ "." ++
    String.mk (padZeros 16 (natToDigits (n % 10 ^ 16)))

/-- Model of the `{:8}` string formatting used for the particle name:
left-aligned, padded on the right with spaces to a minimum width of 8,
never truncated. -/
def fmtName8 (s : String) : String :=
  s ++ String.mk (List.replicate (8 - s.length) ' ')

/-! ### The generic scalar parameter.
The Rust code is generic over `T : FromStr` with `Error: From<T::Err>`
(and `T : Display` on the writer side).  `Scalar T` bundles exactly these
capabilities: the parse function, the `ErrorKind` the `From` conversion
attaches to a failed parse (error.rs produces `ParseFloatError` for f32/f64
and `ParseIntError` for integer types), and the `{:.16}` rendering. -/

structure Scalar (T : Type) : Type where
  parse : String → Option T
  parseErrKind : ErrorKind
  fmtP16 : T → String

/-- `tok.parse::<T>()?`: lift a scalar parse into the error monad, as the
`?` operator does through `Error: From<T::Err>`. -/
def Scalar.parseE {T : Type} (S : Scalar T) (tok : String) : Except Error T :=
  match S.parse tok with
  | some v => Except.ok v
  | none => Except.error (Error.mk S.parseErrKind)

/-- The `f64`/`f32` instantiation, idealized as exact decimal rationals. -/
def decScalar : Scalar ℚ :=
  Scalar.mk decParseQ ErrorKind.parseFloatError fmtQ16

/-! ### xyz.rs -/

/-- `nalgebra::Vector3<T>` as returned by the particle accessors. -/
abbrev Vector3 (T : Type) : Type := T × T × T

/-- `XYZParticle<T>` from xyz.rs. -/
structure XYZParticle (T : Type) : Type where
  name : String
  xyz : Coordinate T
deriving DecidableEq

/-- `XYZParticle::from_line` from xyz.rs: split the line on whitespace;
fail with `Error::invalid_format` unless there are exactly 4 tokens;
parse tokens 2..4 as the scalar, short-circuiting on the first failure;
build the coordinate with the caller-supplied kind. -/
def XYZParticle.from_line {T : Type} (S : Scalar T) (line : String) (kind : CoordKind) :
    Except Error (XYZParticle T) :=
  match splitWhitespace line with
  | [name, ex, ey, ez] => do
    let x ← S.parseE ex
    let y ← S.parseE ey
    let z ← S.parseE ez
    Except.ok (XYZParticle.mk name (Coordinate.build kind x y z))
  | _ => Except.error (Error.invalid_format ("invalid XYZ format: " ++ line))

/-- The `FromStr` impl for `XYZParticle` from xyz.rs: parse the line as a
`Position`. -/
def XYZParticle.from_str {T : Type} (S : Scalar T) (line : String) :
    Except Error (XYZParticle T) :=
  XYZParticle.from_line S line CoordKind.position

/-- The `Display` impl for `XYZParticle` from xyz.rs:
`"{:8} {:.16} {:.16} {:.16}"` applied to the name and `xyz[0..2]`. -/
def XYZParticle.displayLine {T : Type} (S : Scalar T) (p : XYZParticle T) : String :=
  fmtName8 p.name ++ " " ++ S.fmtP16 p.xyz.x ++ " " ++ S.fmtP16 p.xyz.y ++ " " ++
    S.fmtP16 p.xyz.z

/-- `Particle::pos` for `XYZParticle` from xyz.rs. -/
def XYZParticle.pos {T : Type} (p : XYZParticle T) : Option (Vector3 T) :=
  match p.xyz with
  | Coordinate.position x y z => some (x, y, z)
  | _ => none

/-- `Particle::vel` for `XYZParticle` from xyz.rs. -/
def XYZParticle.vel {T : Type} (p : XYZParticle T) : Option (Vector3 T) :=
  match p.xyz with
  | Coordinate.velocity x y z => some (x, y, z)
  | _ => none

/-- `Particle::force` for `XYZParticle` from xyz.rs. -/
def XYZParticle.force {T : Type} (p : XYZParticle T) : Option (Vector3 T) :=
  match p.xyz with
  | Coordinate.force x y z => some (x, y, z)
  | _ => none

/-- `XYZSnapshot<T>` from xyz.rs. -/
structure XYZSnapshot (T : Type) : Type where
  comment : String
  particles : List (XYZParticle T)
deriving DecidableEq

/-- `XYZSnapshot::which` from xyz.rs. -/
def XYZSnapshot.which {T : Type} (ss : XYZSnapshot T) : Option CoordKind :=
  ss.particles.head?.map (fun p => p.xyz.which)

/-- One outcome of `BufRead::read_line` on the underlying stream: a
complete line (stored without its terminating newline, which every use
in the sources strips via `trim` / `split_whitespace`), or an I/O error. -/
inductive LineRead : Type where
  | line (s : String)
  | ioError
deriving DecidableEq

/-- The reader stream state: the remaining line reads.  An exhausted list
is end of stream, where `read_line` returns `Ok(0)` leaving the buffer
empty. -/
def Stream' : Type := List LineRead

/-- Model of `BufRead::read_line` as used by `read_snapshot`: at end of
stream it succeeds with an empty buffer; an I/O failure converts to
`ErrorKind::Io` through `From<io::Error>` (error.rs). -/
def readLine : List LineRead → Except Error (String × List LineRead)
  | [] => Except.ok ("", [])
  | LineRead.line s :: rest => Except.ok (s, rest)
  | LineRead.ioError :: _ => Except.error (Error.mk ErrorKind.io)

/-- `line.trim().parse::<usize>()?` as performed on the header line;
a failed parse converts to `ErrorKind::ParseIntError` through
`From<ParseIntError>` (error.rs). -/
def parseHeader (l : String) : Except Error Nat :=
  match parseUsize (strTrim l) with
  | some n => Except.ok n
  | none => Except.error (Error.mk ErrorKind.parseIntError)

/-- The particle loop of `XYZReader::read_snapshot`: read and parse
exactly `n` further lines, aborting on the first failure. -/
def readParticles {T : Type} (S : Scalar T) (kind : CoordKind) :
    Nat → List LineRead → Except Error (List (XYZParticle T) × List LineRead)
  | 0, st => Except.ok ([], st)
  | n + 1, st => do
    let (l, st1) ← readLine st
    let p ← XYZParticle.from_line S l kind
    let (ps, st2) ← readParticles S kind n st1
    Except.ok (p :: ps, st2)

/-- `XYZReader::read_snapshot` from xyz.rs: read the header line and
parse it as `usize`; read the comment line and trim it; read exactly
`num` particle lines through `from_line` with the reader's kind. -/
def read_snapshot {T : Type} (S : Scalar T) (kind : CoordKind) (st : List LineRead) :
    Except Error (XYZSnapshot T × List LineRead) := do
  let (l1, st1) ← readLine st
  let num ← parseHeader l1
  let (l2, st2) ← readLine st1
  let comment := strTrim l2
  let (particles, st3) ← readParticles S kind num st2
  Except.ok (XYZSnapshot.mk comment particles, st3)

/-- The `Iterator` impl for `XYZReader` from xyz.rs:
`self.read_snapshot().ok()`. -/
def next {T : Type} (S : Scalar T) (kind : CoordKind) (st : List LineRead) :
    Option (XYZSnapshot T × List LineRead) :=
  match read_snapshot S kind st with
  | Except.ok r => some r
  | Except.error _ => none

/-- Driving the iterator to exhaustion (fuel-bounded): collect yielded
snapshots until `next` returns `None`. -/
def readAllSnapshots {T : Type} (S : Scalar T) (kind : CoordKind) :
    Nat → List LineRead → List (XYZSnapshot T)
  | 0, _ => []
  | fuel + 1, st =>
    match next S kind st with
    | some (s, st1) => s :: readAllSnapshots S kind fuel st1
    | none => []

/-- Concatenation of lines, each terminated by a newline, in order; the
sequential buffer writes of the particle loop. -/
def linesConcat : List String → String
  | [] => ""
  | l :: rest => l ++ "\n" ++ linesConcat rest

/-- `XYZWriter::write_snapshot` from xyz.rs, as the emitted bytes: the
particle count line, the comment line verbatim, then one `Display` line
per particle, each terminated by a newline. -/
def write_snapshot {T : Type} (S : Scalar T) (ss : XYZSnapshot T) : String :=
  natRepr ss.particles.length ++ "\n" ++ ss.comment ++ "\n" ++
    linesConcat (ss.particles.map (fun p => XYZParticle.displayLine S p))

/-- Split a character stream at newlines, keeping empty pieces. -/
def splitNLAux : List Char → List Char → List (List Char)
  | [], acc => [acc.reverse]
  | c :: rest, acc =>
    if c = '\n' then acc.reverse :: splitNLAux rest [] else splitNLAux rest (c :: acc)

/-- Feed written bytes back into a reader: the successive `read_line`
results over a byte string (a final piece after the last newline is a
line only if non-empty, matching `read_line` returning `Ok(0)` at EOF). -/
def stringToStream (s : String) : List LineRead :=
  let parts := splitNLAux s.data []
  (if parts.getLast? = some [] then parts.dropLast else parts).map
    (fun l => LineRead.line (String.mk l))

/-! ## Helper lemmas: decimal digits -/

theorem digitChar_isDigit {d : Nat} (h : d < 10) : (Nat.digitChar d).isDigit = true := by
  interval_cases d <;> decide

theorem digitVal_digitChar {d : Nat} (h : d < 10) : digitVal (Nat.digitChar d) = some d := by
  interval_cases d <;> decide

theorem decDigits_ne_nil (n : Nat) : decDigits n ≠ [] := by
  rw [decDigits]
  split <;> simp

theorem decDigits_isDigit (n : Nat) : ∀ c ∈ decDigits n, c.isDigit = true := by
  induction n using Nat.strongRecOn with
  | _ n ih =>
    rw [decDigits]
    split
    · next h =>
      intro c hc
      rw [List.mem_singleton] at hc
      subst hc
      exact digitChar_isDigit h
    · next h =>
      intro c hc
      rw [List.mem_append, List.mem_singleton] at hc
      rcases hc with hc | hc
      · exact ih (n / 10) (Nat.div_lt_self (by omega) (by omega)) c hc
      · subst hc
        exact digitChar_isDigit (Nat.mod_lt _ (by omega))

theorem natToDigitsAux_eq (fuel : Nat) :
    ∀ n acc, n < fuel → natToDigitsAux fuel n acc = decDigits n ++ acc := by
  induction fuel with
  | zero => omega
  | succ fuel ih =>
    intro n acc h
    rw [natToDigitsAux]
    by_cases h10 : n < 10
    · rw [if_pos h10, decDigits, dif_pos h10]
      simp
    · have hdiv : n / 10 < n := Nat.div_lt_self (by omega) (by omega)
      have hrec : decDigits n = decDigits (n / 10) ++ [Nat.digitChar (n % 10)] := by
        rw [decDigits]
        exact dif_neg h10
      rw [if_neg h10, ih (n / 10) _ (by omega), hrec]
      simp

theorem natToDigits_eq (n : Nat) : natToDigits n = decDigits n := by
  rw [natToDigits, natToDigitsAux_eq (n + 1) n [] (by omega), List.append_nil]

theorem digitsGo_append (l1 l2 : List Char) (acc : Nat) :
    digitsGo (l1 ++ l2) acc = (digitsGo l1 acc).bind (fun m => digitsGo l2 m) := by
  induction l1 generalizing acc with
  | nil => simp [digitsGo]
  | cons c r ih =>
    rw [List.cons_append, digitsGo, digitsGo]
    cases hd : digitVal c with
    | some d => simp [ih]
    | none => simp

theorem digitsGo_decDigits (n : Nat) : digitsGo (decDigits n) 0 = some n := by
  induction n using Nat.strongRecOn with
  | _ n ih =>
    rw [decDigits]
    split
    · next h =>
      simp [digitsGo, digitVal_digitChar h]
    · next h =>
      rw [digitsGo_append, ih (n / 10) (Nat.div_lt_self (by omega) (by omega))]
      have hm : n % 10 < 10 := Nat.mod_lt _ (by omega)
      simp only [Option.bind_some, digitsGo, digitVal_digitChar hm]
      exact congrArg some (by omega)

theorem digitsToNat_eq_go {l : List Char} (h : l ≠ []) : digitsToNat l = digitsGo l 0 := by
  cases l with
  | nil => exact absurd rfl h
  | cons c r => rfl

theorem digitsToNat_decDigits (n : Nat) : digitsToNat (decDigits n) = some n := by
  rw [digitsToNat_eq_go (decDigits_ne_nil n), digitsGo_decDigits]

theorem digitsGo_replicate_zero (k : Nat) (l : List Char) :
    digitsGo (List.replicate k '0' ++ l) 0 = digitsGo l 0 := by
  induction k with
  | zero => simp
  | succ k ih =>
    rw [List.replicate_succ, List.cons_append, digitsGo]
    simpa [show digitVal '0' = some 0 from rfl] using ih

theorem digitsToNat_padZeros_decDigits (m : Nat) :
    digitsToNat (padZeros 16 (decDigits m)) = some m := by
  have hne : padZeros 16 (decDigits m) ≠ [] := by
    simp [padZeros, decDigits_ne_nil m]
  rw [digitsToNat_eq_go hne, padZeros, digitsGo_replicate_zero, ← digitsGo_decDigits m]

theorem decDigits_length_le : ∀ n k, 1 ≤ k → n < 10 ^ k → (decDigits n).length ≤ k := by
  intro n
  induction n using Nat.strongRecOn with
  | _ n ih =>
    intro k hk h
    rw [decDigits]
    split
    · next => simpa using hk
    · next h10 =>
      have hk2 : 2 ≤ k := by
        rcases Nat.lt_or_ge k 2 with hlt | hge
        · interval_cases k <;> omega
        · exact hge
      have hdivlt : n / 10 < 10 ^ (k - 1) := by
        apply Nat.div_lt_of_lt_mul
        have hpow : 10 * 10 ^ (k - 1) = 10 ^ k := by
          rw [← pow_succ']
          congr 1
          omega
        rw [hpow]
        exact h
      have := ih (n / 10) (Nat.div_lt_self (by omega) (by omega)) (k - 1) (by omega) hdivlt
      simp only [List.length_append, List.length_singleton]
      omega

theorem padZeros_length {l : List Char} (h : l.length ≤ 16) : (padZeros 16 l).length = 16 := by
  simp only [padZeros, List.length_append, List.length_replicate]
  omega

/-! ## Helper lemmas: characters and trimming -/

theorem isDigit_not_ws {c : Char} (h : c.isDigit = true) : c.isWhitespace = false := by
  by_contra hw
  rw [Bool.not_eq_false] at hw
  simp only [Char.isWhitespace] at hw
  rcases Bool.or_eq_true_iff.mp hw with h1 | h1
  · rcases Bool.or_eq_true_iff.mp h1 with h2 | h2
    · rcases Bool.or_eq_true_iff.mp h2 with h3 | h3 <;>
        (rw [decide_eq_true_iff] at h3; subst h3; exact absurd h (by decide))
    · rw [decide_eq_true_iff] at h2; subst h2; exact absurd h (by decide)
  · rw [decide_eq_true_iff] at h1; subst h1; exact absurd h (by decide)

theorem dropWhile_ws_of_not_ws {l : List Char} (h : ∀ c ∈ l, c.isWhitespace = false) :
    l.dropWhile Char.isWhitespace = l := by
  cases l with
  | nil => rfl
  | cons c r =>
    rw [List.dropWhile_cons, if_neg]
    simp [h c (List.mem_cons_self c r)]

theorem trimChars_of_not_ws {l : List Char} (h : ∀ c ∈ l, c.isWhitespace = false) :
    trimChars l = l := by
  rw [trimChars, dropWhile_ws_of_not_ws h, dropWhile_ws_of_not_ws (by simpa using h),
    List.reverse_reverse]

theorem strTrim_of_not_ws {s : String} (h : ∀ c ∈ s.data, c.isWhitespace = false) :
    strTrim s = s := by
  rw [strTrim, trimChars_of_not_ws h]

theorem parseUsize_natRepr {n : Nat} (h : n < 2 ^ 64) : parseUsize (natRepr n) = some n := by
  have hdata : (natRepr n).data = decDigits n := by
    rw [natRepr, natToDigits_eq]
  rw [parseUsize]
  rcases hcons : decDigits n with _ | ⟨c, r⟩
  · exact absurd hcons (decDigits_ne_nil n)
  · have hcd : c.isDigit = true := by
      apply decDigits_isDigit n
      rw [hcons]
      exact List.mem_cons_self c r
    have hcne : (c = '+') = False := by
      simp only [eq_iff_iff, iff_false]
      intro hc
      subst hc
      exact absurd hcd (by decide)
    simp only [hdata, hcons, hcne, if_false]
    rw [← hcons, ← hdata]
    have : digitsToNat (natRepr n).data = some n := by
      rw [hdata, digitsToNat_decDigits]
    rw [this]
    have h64 : n < 18446744073709551616 := by
      have := h
      norm_num at this
      exact this
    simp [h64]

theorem strTrim_natRepr (n : Nat) : strTrim (natRepr n) = natRepr n := by
  apply strTrim_of_not_ws
  intro c hc
  apply isDigit_not_ws
  apply decDigits_isDigit n
  rw [natRepr, natToDigits_eq] at hc
  exact hc

/-! ## Helper lemmas: `ratMk` and the fixed-precision format -/

theorem ratMk_eq {m : Int} {d : Nat} (hd : d ≠ 0) : ratMk m d = (m : ℚ) / (d : ℚ) := by
  simp only [ratMk]
  set g := Nat.gcd m.natAbs d with hg
  have hg0 : g ≠ 0 := by
    rw [hg]
    exact Nat.gcd_ne_zero_right hd
  have hgpos : 0 < g := Nat.pos_of_ne_zero hg0
  have hgm : (g : Int) ∣ m := by
    rw [hg, Int.natCast_dvd]
    exact Nat.gcd_dvd_left _ _
  have hgd : g ∣ d := by
    rw [hg]
    exact Nat.gcd_dvd_right _ _
  obtain ⟨m', hm'⟩ := hgm
  obtain ⟨d', hd'⟩ := hgd
  have hmdiv : m / (g : Int) = m' := by
    rw [hm', Int.mul_ediv_cancel_left _ (by exact_mod_cast hg0)]
  have hddiv : d / g = d' := by
    rw [hd', Nat.mul_div_cancel_left _ hgpos]
  have hd'0 : d' ≠ 0 := by
    intro h0
    rw [h0, Nat.mul_zero] at hd'
    exact hd hd'
  have hcop : Nat.gcd (m / (g : Int)).natAbs (d / g) = 1 := by
    have hnatAbs : (m / (g : Int)).natAbs = m.natAbs / g := by
      rw [hmdiv]
      have : m.natAbs = g * m'.natAbs := by
        rw [hm', Int.natAbs_mul, Int.natAbs_ofNat]
      rw [this, Nat.mul_div_cancel_left _ hgpos]
    rw [hnatAbs, hddiv, ← hddiv, hg]
    exact Nat.coprime_div_gcd_div_gcd (by rw [← hg]; exact hgpos)
  rw [dif_pos ⟨by rw [hddiv]; exact hd'0, hcop⟩, Rat.mk'_eq_divInt, Rat.divInt_eq_div,
    hmdiv, hddiv, hm', hd']
  push_cast
  rw [mul_div_mul_left _ _ (show (g : ℚ) ≠ 0 by exact_mod_cast hg0)]

theorem dropWhile_append_all {p : Char → Bool} {l1 : List Char}
    (h : ∀ a ∈ l1, p a = true) (l2 : List Char) :
    (l1 ++ l2).dropWhile p = l2.dropWhile p := by
  induction l1 with
  | nil => rfl
  | cons c r ih =>
    rw [List.cons_append, List.dropWhile_cons, if_pos (h c (List.mem_cons_self c r))]
    exact ih (fun a ha => h a (List.mem_cons_of_mem c ha))

theorem decDigits_ne_dot (m : Nat) : ∀ c ∈ decDigits m, (decide ¬c = '.') = true := by
  intro c hc
  have := decDigits_isDigit m c hc
  simp only [decide_eq_true_iff]
  intro h
  subst h
  exact absurd this (by decide)

/-- The characters of `fmtQ16` as a list: an optional sign, the integer
digits, a dot, and exactly 16 zero-padded fraction digits. -/
theorem fmtQ16_data (q : ℚ) :
    (fmtQ16 q).data =
      (if q.num < 0 then ['-'] else []) ++
        decDigits (q.num.natAbs * 10 ^ 16 / q.den / 10 ^ 16) ++
        '.' :: padZeros 16 (decDigits (q.num.natAbs * 10 ^ 16 / q.den % 10 ^ 16)) := by
  rw [fmtQ16]
  by_cases h : q.num < 0 <;>
    simp [h, natRepr, natToDigits_eq, String.data_append]

/-- Scanning the unsigned body of `fmtQ16` recovers the scaled value. -/
theorem decScan_fmt_body (n : Nat) :
    decScan (decDigits (n / 10 ^ 16) ++ '.' :: padZeros 16 (decDigits (n % 10 ^ 16))) =
      some (n, 10 ^ 16) := by
  have hF : n % 10 ^ 16 < 10 ^ 16 := Nat.mod_lt _ (by norm_num)
  have hip : (decDigits (n / 10 ^ 16) ++ '.' :: padZeros 16 (decDigits (n % 10 ^ 16))).takeWhile
      (fun c => decide ¬c = '.') = decDigits (n / 10 ^ 16) := by
    rw [List.takeWhile_append_of_pos (decDigits_ne_dot _), List.takeWhile_cons]
    simp
  have hdp : (decDigits (n / 10 ^ 16) ++ '.' :: padZeros 16 (decDigits (n % 10 ^ 16))).dropWhile
      (fun c => decide ¬c = '.') = '.' :: padZeros 16 (decDigits (n % 10 ^ 16)) := by
    rw [dropWhile_append_all (decDigits_ne_dot _), List.dropWhile_cons]
    simp
  have hlen : (padZeros 16 (decDigits (n % 10 ^ 16))).length = 16 :=
    padZeros_length (decDigits_length_le _ 16 (by norm_num) hF)
  rw [decScan]
  simp only [hip, hdp, digitsToNat_decDigits, digitsToNat_padZeros_decDigits, hlen]
  rw [Nat.mul_comm (n / 10 ^ 16) (10 ^ 16), Nat.div_add_mod]

theorem decParseQ_neg_data {s : String} {rest : List Char} (hs : s.data = '-' :: rest) :
    decParseQ s = (decScan rest).map (fun p => ratMk (-(p.1 : Int)) p.2) := by
  simp only [decParseQ, hs]
  rfl

theorem decParseQ_other_data {s : String} {c : Char} {rest : List Char}
    (hs : s.data = c :: rest) (hc1 : (c = '-') = False) (hc2 : (c = '+') = False) :
    decParseQ s = (decScan (c :: rest)).map (fun p => ratMk (p.1 : Int) p.2) := by
  simp only [decParseQ, hs, hc1, hc2, if_false]

theorem decParseQ_fmtQ16 {q : ℚ} (h : q.den ∣ 10 ^ 16) : decParseQ (fmtQ16 q) = some q := by
  obtain ⟨k, hk⟩ := h
  have hden : q.den ≠ 0 := q.den_nz
  have hk0 : k ≠ 0 := by
    intro h0
    rw [h0, Nat.mul_zero] at hk
    exact absurd hk (by norm_num)
  have hn : q.num.natAbs * 10 ^ 16 / q.den = q.num.natAbs * k := by
    rw [hk, show q.num.natAbs * (q.den * k) = q.den * (q.num.natAbs * k) by ring,
      Nat.mul_div_cancel_left _ (Nat.pos_of_ne_zero hden)]
  have hF : q.num.natAbs * 10 ^ 16 / q.den % 10 ^ 16 < 10 ^ 16 :=
    Nat.mod_lt _ (by norm_num)
  have hscan : decScan (decDigits (q.num.natAbs * 10 ^ 16 / q.den / 10 ^ 16) ++
      '.' :: padZeros 16 (decDigits (q.num.natAbs * 10 ^ 16 / q.den % 10 ^ 16))) =
      some (q.num.natAbs * 10 ^ 16 / q.den, 10 ^ 16) :=
    decScan_fmt_body _
  rcases lt_or_ge q.num 0 with hneg | hpos
  · -- negative: a sign character is present
    have hdata : (fmtQ16 q).data = '-' :: (decDigits (q.num.natAbs * 10 ^ 16 / q.den / 10 ^ 16) ++
        '.' :: padZeros 16 (decDigits (q.num.natAbs * 10 ^ 16 / q.den % 10 ^ 16))) := by
      rw [fmtQ16_data, if_pos hneg]
      rfl
    rw [decParseQ_neg_data hdata, hscan, Option.map_some']
    congr 1
    rw [ratMk_eq (by norm_num), hn, hk]
    push_cast
    rw [abs_of_neg (show (q.num : ℚ) < 0 by exact_mod_cast hneg), neg_mul, neg_neg,
      mul_div_mul_right _ _ (show (k : ℚ) ≠ 0 by exact_mod_cast hk0)]
    exact Rat.num_div_den q
  · -- nonnegative: no sign character
    have hdata : (fmtQ16 q).data = decDigits (q.num.natAbs * 10 ^ 16 / q.den / 10 ^ 16) ++
        '.' :: padZeros 16 (decDigits (q.num.natAbs * 10 ^ 16 / q.den % 10 ^ 16)) := by
      rw [fmtQ16_data, if_neg (not_lt.mpr hpos)]
      rfl
    rcases hcons : decDigits (q.num.natAbs * 10 ^ 16 / q.den / 10 ^ 16) with _ | ⟨c, r⟩
    · exact absurd hcons (decDigits_ne_nil _)
    · have hcd : c.isDigit = true := by
        apply decDigits_isDigit _ c
        rw [hcons]
        exact List.mem_cons_self c r
      have hcm : (c = '-') = False := by
        simp only [eq_iff_iff, iff_false]
        intro hc
        subst hc
        exact absurd hcd (by decide)
      have hcp : (c = '+') = False := by
        simp only [eq_iff_iff, iff_false]
        intro hc
        subst hc
        exact absurd hcd (by decide)
      have hdata' : (fmtQ16 q).data = c :: (r ++
          '.' :: padZeros 16 (decDigits (q.num.natAbs * 10 ^ 16 / q.den % 10 ^ 16))) := by
        rw [hdata, hcons, List.cons_append]
      rw [decParseQ_other_data hdata' hcm hcp, ← List.cons_append, ← hcons, hscan,
        Option.map_some']
      congr 1
      rw [ratMk_eq (by norm_num), hn, hk]
      push_cast
      rw [abs_of_nonneg (show (0 : ℚ) ≤ (q.num : ℚ) by exact_mod_cast hpos),
        mul_div_mul_right _ _ (show (k : ℚ) ≠ 0 by exact_mod_cast hk0)]
      exact Rat.num_div_den q

/-! ## Helper lemmas: whitespace splitting -/

theorem exceptBind_ok {e a b : Type} (x : a) (f : a → Except e b) :
    (Except.ok x : Except e a) >>= f = f x :=
  rfl

theorem exceptBind_err {e a b : Type} (err : e) (f : a → Except e b) :
    (Except.error err : Except e a) >>= f = Except.error err :=
  rfl

theorem mkData (s : String) : String.mk s.data = s :=
  rfl

theorem splitWSAux_nil_acc {acc : List Char} (h : acc ≠ []) :
    splitWSAux [] acc = [acc.reverse] := by
  rw [splitWSAux, if_neg h]

theorem splitWSAux_token {t : List Char} (h : ∀ c ∈ t, c.isWhitespace = false) :
    ∀ (l acc : List Char), splitWSAux (t ++ l) acc = splitWSAux l (t.reverse ++ acc) := by
  induction t with
  | nil =>
    intro l acc
    simp
  | cons c r ih =>
    intro l acc
    rw [List.cons_append, splitWSAux, if_neg (by simp [h c (List.mem_cons_self c r)]),
      ih (fun a ha => h a (List.mem_cons_of_mem c ha)) l (c :: acc)]
    simp

theorem splitWSAux_ws {w : List Char} (h : ∀ c ∈ w, c.isWhitespace = true) :
    ∀ l, splitWSAux (w ++ l) [] = splitWSAux l [] := by
  induction w with
  | nil =>
    intro l
    rfl
  | cons c r ih =>
    intro l
    rw [List.cons_append, splitWSAux, if_pos (h c (List.mem_cons_self c r)), if_pos rfl]
    exact ih (fun a ha => h a (List.mem_cons_of_mem c ha)) l

theorem splitWSAux_flush {c : Char} (hc : c.isWhitespace = true) {acc : List Char}
    (h : acc ≠ []) (l : List Char) :
    splitWSAux (c :: l) acc = acc.reverse :: splitWSAux l [] := by
  rw [splitWSAux, if_pos hc, if_neg h]

theorem splitWSAux_token_sep {t w : List Char} (ht : t ≠ [])
    (hnw : ∀ c ∈ t, c.isWhitespace = false)
    (hw : w ≠ []) (hws : ∀ c ∈ w, c.isWhitespace = true) (rest : List Char) :
    splitWSAux (t ++ (w ++ rest)) [] = t :: splitWSAux rest [] := by
  rw [splitWSAux_token hnw (w ++ rest) [], List.append_nil]
  rcases w with _ | ⟨c, w'⟩
  · exact absurd rfl hw
  · rw [List.cons_append, splitWSAux_flush (hws c (List.mem_cons_self c w')) (by simpa using ht),
      List.reverse_reverse, splitWSAux_ws (fun a ha => hws a (List.mem_cons_of_mem c ha)) rest]

theorem splitWSAux_final {t : List Char} (ht : t ≠ [])
    (hnw : ∀ c ∈ t, c.isWhitespace = false) :
    splitWSAux t [] = [t] := by
  have h1 := splitWSAux_token hnw [] []
  rw [List.append_nil] at h1
  rw [h1, List.append_nil, splitWSAux_nil_acc (by simpa using ht), List.reverse_reverse]

theorem fmtQ16_not_ws (q : ℚ) : ∀ c ∈ (fmtQ16 q).data, c.isWhitespace = false := by
  intro c hc
  rw [fmtQ16_data] at hc
  rcases List.mem_append.mp hc with h1 | h1
  · rcases List.mem_append.mp h1 with h2 | h2
    · by_cases hq : q.num < 0
      · rw [if_pos hq, List.mem_singleton] at h2
        subst h2
        decide
      · rw [if_neg hq] at h2
        simp at h2
    · exact isDigit_not_ws (decDigits_isDigit _ _ h2)
  · rcases List.mem_cons.mp h1 with h3 | h3
    · subst h3
      decide
    · rw [padZeros] at h3
      rcases List.mem_append.mp h3 with h4 | h4
      · rw [List.eq_of_mem_replicate h4]
        decide
      · exact isDigit_not_ws (decDigits_isDigit _ _ h4)

theorem fmtQ16_ne_nil (q : ℚ) : (fmtQ16 q).data ≠ [] := by
  rw [fmtQ16_data]
  rcases hq : decide (q.num < 0) with _ | _ <;> simp [decDigits_ne_nil]

theorem Coordinate.build_xyz {T : Type} (c : Coordinate T) :
    Coordinate.build c.which c.x c.y c.z = c := by
  cases c <;> rfl

/-- Tokenizing a `Display` line of a particle recovers the name and the
three formatted components, provided the name is a non-empty whitespace-free
token and the scalar rendering produces non-empty whitespace-free tokens. -/
theorem splitWhitespace_displayLine (p : XYZParticle ℚ)
    (hn : p.name.data ≠ []) (hnw : ∀ c ∈ p.name.data, c.isWhitespace = false) :
    splitWhitespace (XYZParticle.displayLine decScalar p) =
      [p.name, fmtQ16 p.xyz.x, fmtQ16 p.xyz.y, fmtQ16 p.xyz.z] := by
  have hdata : (XYZParticle.displayLine decScalar p).data =
      p.name.data ++ ((List.replicate (8 - p.name.length) ' ' ++ [' ']) ++
        ((fmtQ16 p.xyz.x).data ++ ([' '] ++
          ((fmtQ16 p.xyz.y).data ++ ([' '] ++ (fmtQ16 p.xyz.z).data))))) := by
    simp only [XYZParticle.displayLine, fmtName8, decScalar, String.data_append]
    simp [String.data]
  have hsep1 : List.replicate (8 - p.name.length) ' ' ++ [' '] ≠ [] := by
    simp
  have hsep1ws : ∀ c ∈ List.replicate (8 - p.name.length) ' ' ++ [' '],
      c.isWhitespace = true := by
    intro c hcm
    rcases List.mem_append.mp hcm with h1 | h1
    · rw [List.eq_of_mem_replicate h1]
      decide
    · rw [List.mem_singleton] at h1
      subst h1
      decide
  have hspws : ∀ c ∈ ([' '] : List Char), c.isWhitespace = true := by
    intro c hcm
    rw [List.mem_singleton] at hcm
    subst hcm
    decide
  rw [splitWhitespace, hdata,
    splitWSAux_token_sep hn hnw hsep1 hsep1ws,
    splitWSAux_token_sep (fmtQ16_ne_nil _) (fmtQ16_not_ws _) (by simp) hspws,
    splitWSAux_token_sep (fmtQ16_ne_nil _) (fmtQ16_not_ws _) (by simp) hspws,
    splitWSAux_final (fmtQ16_ne_nil _) (fmtQ16_not_ws _)]
  simp [mkData]

/-- Parsing back a particle's own `Display` line yields the particle,
when its name is a usable token, its components are representable at the
writer's precision, and its tag is the reader's tag. -/
theorem from_line_displayLine (p : XYZParticle ℚ) (kind : CoordKind)
    (hn : p.name.data ≠ []) (hnw : ∀ c ∈ p.name.data, c.isWhitespace = false)
    (hx : p.xyz.x.den ∣ 10 ^ 16) (hy : p.xyz.y.den ∣ 10 ^ 16) (hz : p.xyz.z.den ∣ 10 ^ 16)
    (htag : p.xyz.which = kind) :
    XYZParticle.from_line decScalar (XYZParticle.displayLine decScalar p) kind =
      Except.ok p := by
  rw [XYZParticle.from_line, splitWhitespace_displayLine p hn hnw]
  have hpx : Scalar.parseE decScalar (fmtQ16 p.xyz.x) = Except.ok p.xyz.x := by
    rw [Scalar.parseE]
    simp [decScalar, decParseQ_fmtQ16 hx]
  have hpy : Scalar.parseE decScalar (fmtQ16 p.xyz.y) = Except.ok p.xyz.y := by
    rw [Scalar.parseE]
    simp [decScalar, decParseQ_fmtQ16 hy]
  have hpz : Scalar.parseE decScalar (fmtQ16 p.xyz.z) = Except.ok p.xyz.z := by
    rw [Scalar.parseE]
    simp [decScalar, decParseQ_fmtQ16 hz]
  simp only [hpx, hpy, hpz, exceptBind_ok]
  rw [← htag, Coordinate.build_xyz]

/-! ## Helper lemmas: line framing of written bytes -/

theorem splitNLAux_piece {a : List Char} (h : ∀ c ∈ a, c ≠ '\n') :
    ∀ (l acc : List Char), splitNLAux (a ++ '\n' :: l) acc =
      (acc.reverse ++ a) :: splitNLAux l [] := by
  induction a with
  | nil =>
    intro l acc
    rw [List.nil_append, splitNLAux, if_pos rfl, List.append_nil]
  | cons c r ih =>
    intro l acc
    rw [List.cons_append, splitNLAux, if_neg (h c (List.mem_cons_self c r)),
      ih (fun a ha => h a (List.mem_cons_of_mem c ha)) l (c :: acc)]
    simp

theorem splitNLAux_linesConcat {ps : List String}
    (h : ∀ s ∈ ps, ∀ c ∈ s.data, c ≠ '\n') :
    splitNLAux (linesConcat ps).data [] = ps.map String.data ++ [[]] := by
  induction ps with
  | nil => rfl
  | cons s r ih =>
    have hd : (s ++ "\n" ++ linesConcat r).data = s.data ++ ('\n' :: (linesConcat r).data) := by
      simp [String.data_append]
    rw [linesConcat, hd, splitNLAux_piece (h s (List.mem_cons_self s r)) _ [],
      List.reverse_nil, List.nil_append,
      ih (fun a ha => h a (List.mem_cons_of_mem s ha))]
    simp

/-- Feeding the written bytes of a snapshot back through the buffered
line reader yields exactly its lines: the count line, the comment line,
and one line per particle, in order. -/
theorem stringToStream_write {T : Type} (S : Scalar T) (ss : XYZSnapshot T)
    (hcm : ∀ c ∈ ss.comment.data, c ≠ '\n')
    (hlines : ∀ p ∈ ss.particles, ∀ c ∈ (XYZParticle.displayLine S p).data, c ≠ '\n') :
    stringToStream (write_snapshot S ss) =
      LineRead.line (natRepr ss.particles.length) :: LineRead.line ss.comment ::
        ss.particles.map (fun p => LineRead.line (XYZParticle.displayLine S p)) := by
  have hdigits : ∀ c ∈ (natRepr ss.particles.length).data, c ≠ '\n' := by
    intro c hcmem he
    subst he
    have := decDigits_isDigit ss.particles.length _ (by
      rw [natRepr, natToDigits_eq] at hcmem
      exact hcmem)
    exact absurd this (by decide)
  have hd : (write_snapshot S ss).data =
      (natRepr ss.particles.length).data ++ '\n' :: (ss.comment.data ++ '\n' ::
        (linesConcat (ss.particles.map (fun p => XYZParticle.displayLine S p))).data) := by
    rw [write_snapshot]
    simp [String.data_append]
  have hjoin : splitNLAux
      (linesConcat (ss.particles.map (fun p => XYZParticle.displayLine S p))).data [] =
      (ss.particles.map (fun p => XYZParticle.displayLine S p)).map String.data ++ [[]] := by
    apply splitNLAux_linesConcat
    intro s hs
    rcases List.mem_map.mp hs with ⟨p, hp, rfl⟩
    exact hlines p hp
  rw [stringToStream, hd, splitNLAux_piece hdigits _ [], List.reverse_nil, List.nil_append,
    splitNLAux_piece hcm _ [], List.reverse_nil, List.nil_append, hjoin]
  have hlast : ((natRepr ss.particles.length).data :: ss.comment.data ::
      ((ss.particles.map (fun p => XYZParticle.displayLine S p)).map String.data ++ [[]])
      : List (List Char)).getLast? = some [] := by
    rw [show ((natRepr ss.particles.length).data :: ss.comment.data ::
      ((ss.particles.map (fun p => XYZParticle.displayLine S p)).map String.data ++ [[]])
      : List (List Char)) = ((natRepr ss.particles.length).data :: ss.comment.data ::
        (ss.particles.map (fun p => XYZParticle.displayLine S p)).map String.data) ++ [[]] by
        simp]
    exact List.getLast?_concat _
  rw [if_pos hlast]
  have hdrop : ((natRepr ss.particles.length).data :: ss.comment.data ::
      ((ss.particles.map (fun p => XYZParticle.displayLine S p)).map String.data ++ [[]])
      : List (List Char)).dropLast = (natRepr ss.particles.length).data :: ss.comment.data ::
        (ss.particles.map (fun p => XYZParticle.displayLine S p)).map String.data := by
    rw [show ((natRepr ss.particles.length).data :: ss.comment.data ::
      ((ss.particles.map (fun p => XYZParticle.displayLine S p)).map String.data ++ [[]])
      : List (List Char)) = ((natRepr ss.particles.length).data :: ss.comment.data ::
        (ss.particles.map (fun p => XYZParticle.displayLine S p)).map String.data) ++ [[]] by
        simp]
    exact List.dropLast_concat
  rw [hdrop]
  simp [mkData, Function.comp]

/-- Reading back lines that are the `Display` renderings of particles
that each re-parse to themselves. -/
theorem readParticles_lines {T : Type} (S : Scalar T) (kind : CoordKind)
    (ps : List (XYZParticle T)) (rest : List LineRead)
    (h : ∀ p ∈ ps, XYZParticle.from_line S (XYZParticle.displayLine S p) kind =
      Except.ok p) :
    readParticles S kind ps.length
      (ps.map (fun p => LineRead.line (XYZParticle.displayLine S p)) ++ rest) =
      Except.ok (ps, rest) := by
  induction ps with
  | nil => rfl
  | cons p r ih =>
    rw [List.map_cons, List.cons_append, List.length_cons, readParticles]
    simp only [readLine, exceptBind_ok, h p (List.mem_cons_self p r),
      ih (fun a ha => h a (List.mem_cons_of_mem p ha))]

/-- C2 (amended): for a snapshot whose particles all carry the reader's
tag K, whose names are non-empty whitespace-free tokens, whose components
are representable at the writer's 16-decimal precision, whose comment is
newline-free and trim-stable, and whose particle count fits in `usize`,
`write_snapshot` followed by `read_snapshot` with tag K yields back the
same comment, particle count, names, and exactly equal components. -/
theorem write_read_roundtrip (ss : XYZSnapshot ℚ) (kind : CoordKind)
    (htag : ∀ p ∈ ss.particles, p.xyz.which = kind)
    (hname : ∀ p ∈ ss.particles, p.name.data ≠ [] ∧ ∀ c ∈ p.name.data, c.isWhitespace = false)
    (hden : ∀ p ∈ ss.particles,
      p.xyz.x.den ∣ 10 ^ 16 ∧ p.xyz.y.den ∣ 10 ^ 16 ∧ p.xyz.z.den ∣ 10 ^ 16)
    (hcm : ∀ c ∈ ss.comment.data, c ≠ '\n')
    (htrim : trimChars ss.comment.data = ss.comment.data)
    (hcount : ss.particles.length < 2 ^ 64) :
    read_snapshot decScalar kind (stringToStream (write_snapshot decScalar ss)) =
      Except.ok (ss, []) := by
  have hlines : ∀ p ∈ ss.particles,
      ∀ c ∈ (XYZParticle.displayLine decScalar p).data, c ≠ '\n' := by
    intro p hp c hcmem he
    subst he
    have := fmtQ16_not_ws
    have hws : ('\n' : Char).isWhitespace = true := by decide
    have hdata : (XYZParticle.displayLine decScalar p).data =
        p.name.data ++ ((List.replicate (8 - p.name.length) ' ' ++ [' ']) ++
          ((fmtQ16 p.xyz.x).data ++ ([' '] ++
            ((fmtQ16 p.xyz.y).data ++ ([' '] ++ (fmtQ16 p.xyz.z).data))))) := by
      simp only [XYZParticle.displayLine, fmtName8, decScalar, String.data_append]
      simp [String.data]
    rw [hdata] at hcmem
    rcases List.mem_append.mp hcmem with h1 | h1
    · exact absurd hws (by rw [(hname p hp).2 _ h1]; simp)
    · rcases List.mem_append.mp h1 with h2 | h2
      · rcases List.mem_append.mp h2 with h3 | h3
        · exact absurd (List.eq_of_mem_replicate h3) (by decide)
        · rw [List.mem_singleton] at h3
          exact absurd h3 (by decide)
      · rcases List.mem_append.mp h2 with h3 | h3
        · exact absurd hws (by rw [fmtQ16_not_ws _ _ h3]; simp)
        · rcases List.mem_append.mp h3 with h4 | h4
          · rw [List.mem_singleton] at h4
            exact absurd h4 (by decide)
          · rcases List.mem_append.mp h4 with h5 | h5
            · exact absurd hws (by rw [fmtQ16_not_ws _ _ h5]; simp)
            · rcases List.mem_append.mp h5 with h6 | h6
              · rw [List.mem_singleton] at h6
                exact absurd h6 (by decide)
              · exact absurd hws (by rw [fmtQ16_not_ws _ _ h6]; simp)
  rw [stringToStream_write decScalar ss hcm hlines, read_snapshot]
  have hheader : parseHeader (natRepr ss.particles.length) =
      Except.ok ss.particles.length := by
    rw [parseHeader, strTrim_natRepr, parseUsize_natRepr hcount]
  have hcomment : strTrim ss.comment = ss.comment := by
    rw [strTrim, htrim, mkData]
  have hparts : readParticles decScalar kind ss.particles.length
      (ss.particles.map (fun p => LineRead.line (XYZParticle.displayLine decScalar p))) =
      Except.ok (ss.particles, []) := by
    have := readParticles_lines decScalar kind ss.particles []
      (fun p hp => from_line_displayLine p kind (hname p hp).1 (hname p hp).2
        (hden p hp).1 (hden p hp).2.1 (hden p hp).2.2 (htag p hp))
    rwa [List.append_nil] at this
  simp only [readLine, exceptBind_ok, hheader, hcomment, hparts]

/-! ## Helper lemmas: reader structure -/

theorem from_line_empty {T : Type} (S : Scalar T) (kind : CoordKind) :
    XYZParticle.from_line S "" kind =
      Except.error (Error.invalid_format "invalid XYZ format: ") :=
  rfl

theorem readLine_ok {st : List LineRead} {l : String} {st1 : List LineRead}
    (h : readLine st = Except.ok (l, st1)) : st1 = st.drop 1 := by
  rcases st with _ | ⟨lr, r⟩
  · rw [readLine] at h
    simp only [Except.ok.injEq, Prod.mk.injEq] at h
    rw [← h.2]
    rfl
  · rcases lr with s | _
    · rw [readLine] at h
      simp only [Except.ok.injEq, Prod.mk.injEq] at h
      rw [← h.2]
      rfl
    · rw [readLine] at h
      cases h

theorem parseHeader_ok {l : String} {N : Nat} (h : parseHeader l = Except.ok N) :
    parseUsize (strTrim l) = some N := by
  rw [parseHeader] at h
  rcases hu : parseUsize (strTrim l) with _ | m
  · rw [hu] at h
    cases h
  · rw [hu] at h
    simp only [Except.ok.injEq] at h
    rw [h]

theorem readParticles_ok {T : Type} (S : Scalar T) (kind : CoordKind) :
    ∀ (n : Nat) (st : List LineRead) (ps : List (XYZParticle T)) (st' : List LineRead),
      readParticles S kind n st = Except.ok (ps, st') →
      ∃ ls : List String, ls.length = n ∧ ps.length = n ∧
        st.take n = ls.map LineRead.line ∧ st' = st.drop n ∧
        ls.mapM (fun l => XYZParticle.from_line S l kind) = Except.ok ps := by
  intro n
  induction n with
  | zero =>
    intro st ps st' h
    rw [readParticles] at h
    simp only [Except.ok.injEq, Prod.mk.injEq] at h
    obtain ⟨h1, h2⟩ := h
    refine ⟨[], rfl, by simp [← h1], by simp, by simp [h2], ?_⟩
    rw [← h1]
    rfl
  | succ n ih =>
    intro st ps st' h
    rw [readParticles] at h
    rcases st with _ | ⟨lr, rest⟩
    · simp only [readLine, exceptBind_ok, from_line_empty, exceptBind_err] at h
      cases h
    · rcases lr with s | _
      · simp only [readLine, exceptBind_ok] at h
        rcases hfl : XYZParticle.from_line S s kind with e | p
        · rw [hfl, exceptBind_err] at h
          cases h
        · rw [hfl, exceptBind_ok] at h
          rcases hrp : readParticles S kind n rest with e | pr
          · rw [hrp, exceptBind_err] at h
            cases h
          · rcases pr with ⟨ps', st2⟩
            rw [hrp, exceptBind_ok] at h
            simp only [Except.ok.injEq, Prod.mk.injEq] at h
            obtain ⟨h1, h2⟩ := h
            obtain ⟨ls, hlen, hplen, htake, hdrop, hmap⟩ := ih rest ps' st2 hrp
            refine ⟨s :: ls, by simp [hlen], by simp [← h1, hplen], ?_, ?_, ?_⟩
            · rw [List.take_succ_cons, htake, List.map_cons]
            · rw [List.drop_succ_cons, ← hdrop, h2]
            · rw [List.mapM_cons]
              simp only [hfl, hmap, exceptBind_ok]
              rw [← h1]
              rfl
      · simp only [readLine, exceptBind_err] at h
        cases h

theorem readParticles_exhaust {T : Type} (S : Scalar T) (kind : CoordKind) :
    ∀ (rest : List LineRead) (n : Nat),
      (∀ r ∈ rest, ∃ s p, r = LineRead.line s ∧
        XYZParticle.from_line S s kind = Except.ok p) →
      rest.length < n →
      readParticles S kind n rest =
        Except.error (Error.invalid_format "invalid XYZ format: ") := by
  intro rest
  induction rest with
  | nil =>
    intro n hall hlt
    rcases n with _ | n
    · omega
    · rw [readParticles]
      simp only [readLine, exceptBind_ok, from_line_empty, exceptBind_err]
  | cons r rest ih =>
    intro n hall hlt
    rcases n with _ | n
    · omega
    · obtain ⟨s, p, rfl, hok⟩ := hall r (List.mem_cons_self r rest)
      rw [readParticles]
      simp only [readLine, exceptBind_ok, hok,
        ih n (fun a ha => hall a (List.mem_cons_of_mem _ ha)) (by simpa using hlt),
        exceptBind_err]

theorem read_snapshot_nil {T : Type} (S : Scalar T) (kind : CoordKind) :
    read_snapshot S kind [] = Except.error (Error.mk ErrorKind.parseIntError) :=
  rfl

theorem read_snapshot_ioErr {T : Type} (S : Scalar T) (kind : CoordKind)
    (rest : List LineRead) :
    read_snapshot S kind (LineRead.ioError :: rest) = Except.error (Error.mk ErrorKind.io) :=
  rfl

/-- Characterization of a successful `read_snapshot` call against the
stream it consumed. -/
theorem read_snapshot_ok_shape {T : Type} (S : Scalar T) (kind : CoordKind)
    {st : List LineRead} {snap : XYZSnapshot T} {st' : List LineRead}
    (h : read_snapshot S kind st = Except.ok (snap, st')) :
    ∃ (l1 l2 : String) (N : Nat) (ls : List String),
      st.head? = some (LineRead.line l1) ∧
      parseUsize (strTrim l1) = some N ∧
      readLine (st.drop 1) = Except.ok (l2, st.drop 2) ∧
      snap.comment = strTrim l2 ∧
      snap.particles.length = N ∧
      (st.drop 2).take N = ls.map LineRead.line ∧
      ls.mapM (fun l => XYZParticle.from_line S l kind) = Except.ok snap.particles ∧
      st' = st.drop (2 + N) := by
  obtain ⟨snapc, snapp⟩ := snap
  rcases hr1 : readLine st with e | ⟨l1, st1⟩
  · rw [read_snapshot] at h
    simp only [hr1, exceptBind_err] at h
    cases h
  · rw [read_snapshot] at h
    simp only [hr1, exceptBind_ok] at h
    rcases hph : parseHeader l1 with e | N
    · simp only [hph, exceptBind_err] at h
      cases h
    · simp only [hph, exceptBind_ok] at h
      rcases hr2 : readLine st1 with e | ⟨l2, st2⟩
      · simp only [hr2, exceptBind_err] at h
        cases h
      · simp only [hr2, exceptBind_ok] at h
        rcases hrp : readParticles S kind N st2 with e | ⟨ps, st3⟩
        · simp only [hrp, exceptBind_err] at h
          cases h
        · simp only [hrp, exceptBind_ok] at h
          simp only [Except.ok.injEq, Prod.mk.injEq, XYZSnapshot.mk.injEq] at h
          obtain ⟨⟨hcom, hps⟩, hst3⟩ := h
          obtain ⟨ls, hlen, hplen, htake, hdropp, hmap⟩ :=
            readParticles_ok S kind N st2 ps st3 hrp
          have hst1 : st1 = st.drop 1 := readLine_ok hr1
          have hst2 : st2 = st.drop 2 := by
            have := readLine_ok hr2
            rw [hst1] at this
            rw [this, List.drop_drop]
          have hhead : st.head? = some (LineRead.line l1) := by
            rcases st with _ | ⟨lr, r⟩
            · rw [readLine] at hr1
              simp only [Except.ok.injEq, Prod.mk.injEq] at hr1
              rw [← hr1.1] at hph
              cases hph
            · rcases lr with s | _
              · rw [readLine] at hr1
                simp only [Except.ok.injEq, Prod.mk.injEq] at hr1
                rw [List.head?_cons, hr1.1]
              · rw [readLine] at hr1
                cases hr1
          refine ⟨l1, l2, N, ls, hhead, parseHeader_ok hph, ?_, by rw [← hcom], ?_, ?_, ?_, ?_⟩
          · rw [← hst1, hr2, hst2]
          · rw [← hps, hplen]
          · rw [← hst2, htake]
          · rw [← hps]
            exact hmap
          · rw [← hst3, hdropp, hst2, List.drop_drop]

/-! ## Helper lemmas: `from_line` case analysis -/

theorem from_line_not4 {T : Type} (S : Scalar T) (kind : CoordKind) (line : String)
    (h : (splitWhitespace line).length ≠ 4) :
    XYZParticle.from_line S line kind =
      Except.error (Error.invalid_format ("invalid XYZ format: " ++ line)) := by
  rw [XYZParticle.from_line]
  split
  · next name ex ey ez heq => exact absurd (by rw [heq]; rfl) h
  · rfl

theorem from_line_ok_build {T : Type} (S : Scalar T) (kind : CoordKind) {line : String}
    {p : XYZParticle T} (h : XYZParticle.from_line S line kind = Except.ok p) :
    ∃ name x y z, p = XYZParticle.mk name (Coordinate.build kind x y z) := by
  rw [XYZParticle.from_line] at h
  split at h
  · next name ex ey ez heq =>
    rcases hx : S.parseE ex with e | x
    · simp only [hx, exceptBind_err] at h
      cases h
    · simp only [hx, exceptBind_ok] at h
      rcases hy : S.parseE ey with e | y
      · simp only [hy, exceptBind_err] at h
        cases h
      · simp only [hy, exceptBind_ok] at h
        rcases hz : S.parseE ez with e | z
        · simp only [hz, exceptBind_err] at h
          cases h
        · simp only [hz, exceptBind_ok] at h
          simp only [Except.ok.injEq] at h
          exact ⟨name, x, y, z, h.symm⟩
  · cases h

theorem from_line_parse_fail {T : Type} (S : Scalar T) (kind : CoordKind) {line : String}
    {tn ta tb tc : String} (hsplit : splitWhitespace line = [tn, ta, tb, tc])
    (hfail : S.parse ta = none ∨ S.parse tb = none ∨ S.parse tc = none) :
    XYZParticle.from_line S line kind = Except.error (Error.mk S.parseErrKind) := by
  rw [XYZParticle.from_line]
  split
  case h_2 hne => exact absurd hsplit (hne tn ta tb tc)
  case h_1 name ex ey ez heq =>
  rw [hsplit] at heq
  obtain ⟨rfl, rfl, rfl, rfl⟩ : tn = name ∧ ta = ex ∧ tb = ey ∧ tc = ez := by
    simpa using heq
  rcases hfail with ha | hb | hc
  · rw [show S.parseE ta = Except.error (Error.mk S.parseErrKind) by rw [Scalar.parseE, ha],
      exceptBind_err]
  · rcases hpa : S.parse ta with _ | x
    · rw [show S.parseE ta = Except.error (Error.mk S.parseErrKind) by rw [Scalar.parseE, hpa],
        exceptBind_err]
    · rw [show S.parseE ta = Except.ok x by rw [Scalar.parseE, hpa], exceptBind_ok,
        show S.parseE tb = Except.error (Error.mk S.parseErrKind) by rw [Scalar.parseE, hb],
        exceptBind_err]
  · rcases hpa : S.parse ta with _ | x
    · rw [show S.parseE ta = Except.error (Error.mk S.parseErrKind) by rw [Scalar.parseE, hpa],
        exceptBind_err]
    · rcases hpb : S.parse tb with _ | y
      · rw [show S.parseE ta = Except.ok x by rw [Scalar.parseE, hpa], exceptBind_ok,
          show S.parseE tb = Except.error (Error.mk S.parseErrKind) by rw [Scalar.parseE, hpb],
          exceptBind_err]
      · rw [show S.parseE ta = Except.ok x by rw [Scalar.parseE, hpa], exceptBind_ok,
          show S.parseE tb = Except.ok y by rw [Scalar.parseE, hpb], exceptBind_ok,
          show S.parseE tc = Except.error (Error.mk S.parseErrKind) by rw [Scalar.parseE, hc],
          exceptBind_err]

theorem read_snapshot_header_fail {T : Type} (S : Scalar T) (kind : CoordKind)
    {l1 : String} (hl : parseUsize (strTrim l1) = none) (rest : List LineRead) :
    read_snapshot S kind (LineRead.line l1 :: rest) =
      Except.error (Error.mk ErrorKind.parseIntError) := by
  rw [read_snapshot]
  have hph : parseHeader l1 = Except.error (Error.mk ErrorKind.parseIntError) := by
    rw [parseHeader, hl]
  simp only [readLine, exceptBind_ok, hph, exceptBind_err]

theorem readAllSnapshots_succ_some {T : Type} (S : Scalar T) (kind : CoordKind)
    (fuel : Nat) {st : List LineRead} {s : XYZSnapshot T} {st1 : List LineRead}
    (h : next S kind st = some (s, st1)) :
    readAllSnapshots S kind (fuel + 1) st = s :: readAllSnapshots S kind fuel st1 := by
  rw [readAllSnapshots]
  simp only [h]

theorem readAllSnapshots_succ_none {T : Type} (S : Scalar T) (kind : CoordKind)
    (fuel : Nat) {st : List LineRead} (h : next S kind st = none) :
    readAllSnapshots S kind (fuel + 1) st = [] := by
  rw [readAllSnapshots]
  simp only [h]

/-! ## Claim theorems, witnesses and counterexamples -/

/-- C1: `read_snapshot` proceeds in order — it reads one line and parses
it as an unsigned count N (aborting on I/O error, non-numeric text, or
end-of-stream, where the empty buffer fails integer parsing), reads one
line as the unvalidated comment, then reads exactly N further lines
parsing each with the reader's configured tag (aborting the whole call on
the first failure), and on success returns a snapshot with exactly N
particles, having consumed exactly 2 + N lines. -/
theorem read_snapshot_protocol {T : Type} (S : Scalar T) (kind : CoordKind) :
    (∀ (st : List LineRead) (snap : XYZSnapshot T) (st' : List LineRead),
      read_snapshot S kind st = Except.ok (snap, st') →
      ∃ (l1 l2 : String) (N : Nat) (ls : List String),
        st.head? = some (LineRead.line l1) ∧
        parseUsize (strTrim l1) = some N ∧
        readLine (st.drop 1) = Except.ok (l2, st.drop 2) ∧
        snap.comment = strTrim l2 ∧
        snap.particles.length = N ∧
        (st.drop 2).take N = ls.map LineRead.line ∧
        ls.mapM (fun l => XYZParticle.from_line S l kind) = Except.ok snap.particles ∧
        st' = st.drop (2 + N)) ∧
    read_snapshot S kind [] = Except.error (Error.mk ErrorKind.parseIntError) ∧
    (∀ rest, read_snapshot S kind (LineRead.ioError :: rest) =
      Except.error (Error.mk ErrorKind.io)) ∧
    (∀ (l1 : String) (rest : List LineRead), parseUsize (strTrim l1) = none →
      read_snapshot S kind (LineRead.line l1 :: rest) =
        Except.error (Error.mk ErrorKind.parseIntError)) := by
  refine ⟨?_, read_snapshot_nil S kind, read_snapshot_ioErr S kind, ?_⟩
  · intro st snap st' h
    exact read_snapshot_ok_shape S kind h
  · intro l1 rest hl
    exact read_snapshot_header_fail S kind hl rest

/-- C1, witness: the protocol facts at a concrete one-particle frame. -/
theorem read_snapshot_protocol_witness :
    ∃ (l1 l2 : String) (N : Nat) (ls : List String),
      ([LineRead.line "1", LineRead.line "c", LineRead.line "H 1.0 2.0 3.0"] :
        List LineRead).head? = some (LineRead.line l1) ∧
      parseUsize (strTrim l1) = some N ∧
      readLine (([LineRead.line "1", LineRead.line "c", LineRead.line "H 1.0 2.0 3.0"] :
        List LineRead).drop 1) =
        Except.ok (l2, ([LineRead.line "1", LineRead.line "c",
          LineRead.line "H 1.0 2.0 3.0"] : List LineRead).drop 2) ∧
      (XYZSnapshot.mk "c" [XYZParticle.mk "H" (Coordinate.position (1 : ℚ) 2 3)]).comment =
        strTrim l2 ∧
      (XYZSnapshot.mk "c"
        [XYZParticle.mk "H" (Coordinate.position (1 : ℚ) 2 3)]).particles.length = N ∧
      (([LineRead.line "1", LineRead.line "c", LineRead.line "H 1.0 2.0 3.0"] :
        List LineRead).drop 2).take N = ls.map LineRead.line ∧
      ls.mapM (fun l => XYZParticle.from_line decScalar l CoordKind.position) =
        Except.ok (XYZSnapshot.mk "c"
          [XYZParticle.mk "H" (Coordinate.position (1 : ℚ) 2 3)]).particles ∧
      ([] : List LineRead) = ([LineRead.line "1", LineRead.line "c",
        LineRead.line "H 1.0 2.0 3.0"] : List LineRead).drop (2 + N) :=
  (read_snapshot_protocol decScalar CoordKind.position).1 _ _ _ (by decide)

/-- C2, counterexample: the round trip does not preserve every comment —
a trailing space is trimmed on the way back in, so the claim fails as
stated for the snapshot with comment `"x "` and no particles. -/
theorem roundtrip_comment_counterexample :
    read_snapshot decScalar CoordKind.position (stringToStream (write_snapshot decScalar
      (XYZSnapshot.mk "x " ([] : List (XYZParticle ℚ))))) =
      Except.ok (XYZSnapshot.mk "x" [], []) ∧
    ("x" : String) ≠ "x " := by
  decide

/-- C2, witness: an exact round trip of a concrete one-particle snapshot. -/
theorem write_read_roundtrip_witness :
    read_snapshot decScalar CoordKind.position (stringToStream (write_snapshot decScalar
      (XYZSnapshot.mk "hello" [XYZParticle.mk "H" (Coordinate.position (1 : ℚ) 2 3)]))) =
      Except.ok (XYZSnapshot.mk "hello"
        [XYZParticle.mk "H" (Coordinate.position (1 : ℚ) 2 3)], []) :=
  write_read_roundtrip _ CoordKind.position (by decide) (by decide) (by decide) (by decide)
    (by decide) (by decide)

/-- C3: a line whose whitespace token count is not 4 fails with the
`InvalidFormat` error carrying `"invalid XYZ format: "` followed by the
offending line, from which the line is recovered by dropping that fixed
20-character prelude; no particle is constructed. -/
theorem from_line_wrong_token_count {T : Type} (S : Scalar T) (kind : CoordKind)
    (line : String) (h : (splitWhitespace line).length ≠ 4) :
    XYZParticle.from_line S line kind =
      Except.error (Error.invalid_format ("invalid XYZ format: " ++ line)) ∧
    ("invalid XYZ format: " ++ line).data.drop 20 = line.data := by
  refine ⟨from_line_not4 S kind line h, ?_⟩
  rw [String.data_append,
    show (20 : Nat) = ("invalid XYZ format: " : String).data.length from by decide]
  exact List.drop_left _ _

/-- C3, witness: the 3-token line `"H 1.0 2.0"`. -/
theorem from_line_wrong_token_count_witness :
    XYZParticle.from_line decScalar "H 1.0 2.0" CoordKind.position =
      Except.error (Error.invalid_format ("invalid XYZ format: " ++ "H 1.0 2.0")) ∧
    ("invalid XYZ format: " ++ "H 1.0 2.0").data.drop 20 = ("H 1.0 2.0" : String).data :=
  from_line_wrong_token_count decScalar CoordKind.position "H 1.0 2.0" (by decide)

/-- C4: a 4-token line with a failing numeric token fails with the error
kind attached by the scalar's `From` conversion (`ParseFloatError` or
`ParseIntError` per error.rs), which is not the `Format` kind, and no
particle is constructed. -/
theorem from_line_numeric_error {T : Type} (S : Scalar T) (kind : CoordKind)
    (line tn ta tb tc : String) (hsplit : splitWhitespace line = [tn, ta, tb, tc])
    (hfail : S.parse ta = none ∨ S.parse tb = none ∨ S.parse tc = none)
    (hkind : S.parseErrKind = ErrorKind.parseFloatError ∨
      S.parseErrKind = ErrorKind.parseIntError) :
    XYZParticle.from_line S line kind = Except.error (Error.mk S.parseErrKind) ∧
    (Error.mk S.parseErrKind).kind.isFormat = false := by
  refine ⟨from_line_parse_fail S kind hsplit hfail, ?_⟩
  rcases hkind with h | h <;> rw [h] <;> rfl

/-- C4, witness: the line `"H a 2.0 3.0"` under the float scalar. -/
theorem from_line_numeric_error_witness :
    XYZParticle.from_line decScalar "H a 2.0 3.0" CoordKind.position =
      Except.error (Error.mk decScalar.parseErrKind) ∧
    (Error.mk decScalar.parseErrKind).kind.isFormat = false :=
  from_line_numeric_error decScalar CoordKind.position "H a 2.0 3.0" "H" "a" "2.0" "3.0"
    (by decide) (Or.inl (by decide)) (Or.inl rfl)

/-- C5: parsing `"H 1.0 2.0 3.0"` with the Velocity tag yields a particle
whose `vel` is `some (1, 2, 3)` while `pos` and `force` are `none`; in
general a parsed particle answers `some` exactly for the accessor of the
tag it was parsed with. -/
theorem particle_tag_accessors :
    (XYZParticle.from_line decScalar "H 1.0 2.0 3.0" CoordKind.velocity =
      Except.ok (XYZParticle.mk "H" (Coordinate.velocity 1 2 3)) ∧
     (XYZParticle.mk "H" (Coordinate.velocity (1 : ℚ) 2 3)).vel = some (1, 2, 3) ∧
     (XYZParticle.mk "H" (Coordinate.velocity (1 : ℚ) 2 3)).pos = none ∧
     (XYZParticle.mk "H" (Coordinate.velocity (1 : ℚ) 2 3)).force = none) ∧
    (∀ (T : Type) (S : Scalar T) (line : String) (kind : CoordKind) (p : XYZParticle T),
      XYZParticle.from_line S line kind = Except.ok p →
      (p.pos.isSome = true ↔ kind = CoordKind.position) ∧
      (p.vel.isSome = true ↔ kind = CoordKind.velocity) ∧
      (p.force.isSome = true ↔ kind = CoordKind.force)) := by
  constructor
  · exact ⟨by decide, by decide, by decide, by decide⟩
  · intro T S line kind p h
    obtain ⟨name, x, y, z, rfl⟩ := from_line_ok_build S kind h
    cases kind <;>
      simp [Coordinate.build, XYZParticle.pos, XYZParticle.vel, XYZParticle.force]

/-- C5, witness: the general accessor law applied at the concrete parse. -/
theorem particle_tag_accessors_witness :
    ((XYZParticle.mk "H" (Coordinate.velocity (1 : ℚ) 2 3)).pos.isSome = true ↔
      CoordKind.velocity = CoordKind.position) ∧
    ((XYZParticle.mk "H" (Coordinate.velocity (1 : ℚ) 2 3)).vel.isSome = true ↔
      CoordKind.velocity = CoordKind.velocity) ∧
    ((XYZParticle.mk "H" (Coordinate.velocity (1 : ℚ) 2 3)).force.isSome = true ↔
      CoordKind.velocity = CoordKind.force) :=
  particle_tag_accessors.2 ℚ decScalar "H 1.0 2.0 3.0" CoordKind.velocity
    (XYZParticle.mk "H" (Coordinate.velocity 1 2 3)) (by decide)

/-- C6: each iteration step attempts one `read_snapshot` — success yields
the snapshot, any failure ends the sequence without yielding and without
surfacing the error; concretely, two well-formed frames followed by a
malformed third yield exactly the two snapshots for every sufficient
fuel. -/
theorem iterator_behavior :
    (∀ fuel : Nat, readAllSnapshots decScalar CoordKind.position (fuel + 3)
      [LineRead.line "1", LineRead.line "first", LineRead.line "A 1.0 2.0 3.0",
       LineRead.line "1", LineRead.line "second", LineRead.line "B 4.0 5.0 6.0",
       LineRead.line "oops", LineRead.line "bad"] =
      [XYZSnapshot.mk "first" [XYZParticle.mk "A" (Coordinate.position 1 2 3)],
       XYZSnapshot.mk "second" [XYZParticle.mk "B" (Coordinate.position 4 5 6)]]) ∧
    (∀ (T : Type) (S : Scalar T) (kind : CoordKind) (st : List LineRead)
      (r : XYZSnapshot T × List LineRead),
      read_snapshot S kind st = Except.ok r → next S kind st = some r) ∧
    (∀ (T : Type) (S : Scalar T) (kind : CoordKind) (st : List LineRead) (e : Error),
      read_snapshot S kind st = Except.error e → next S kind st = none) := by
  refine ⟨?_, ?_, ?_⟩
  · intro fuel
    have h1 : next decScalar CoordKind.position
        [LineRead.line "1", LineRead.line "first", LineRead.line "A 1.0 2.0 3.0",
         LineRead.line "1", LineRead.line "second", LineRead.line "B 4.0 5.0 6.0",
         LineRead.line "oops", LineRead.line "bad"] =
        some (XYZSnapshot.mk "first" [XYZParticle.mk "A" (Coordinate.position 1 2 3)],
          [LineRead.line "1", LineRead.line "second", LineRead.line "B 4.0 5.0 6.0",
           LineRead.line "oops", LineRead.line "bad"]) := by decide
    have h2 : next decScalar CoordKind.position
        [LineRead.line "1", LineRead.line "second", LineRead.line "B 4.0 5.0 6.0",
         LineRead.line "oops", LineRead.line "bad"] =
        some (XYZSnapshot.mk "second" [XYZParticle.mk "B" (Coordinate.position 4 5 6)],
          [LineRead.line "oops", LineRead.line "bad"]) := by decide
    have h3 : next decScalar CoordKind.position
        [LineRead.line "oops", LineRead.line "bad"] =
        (none : Option (XYZSnapshot ℚ × List LineRead)) := by decide
    rw [show fuel + 3 = fuel + 2 + 1 from rfl, readAllSnapshots_succ_some _ _ _ h1,
      show fuel + 2 = fuel + 1 + 1 from rfl, readAllSnapshots_succ_some _ _ _ h2,
      readAllSnapshots_succ_none _ _ _ h3]
  · intro T S kind st r h
    rw [next, h]
  · intro T S kind st e h
    rw [next, h]

/-- C6, witness: one successful step yields, one failing step stops. -/
theorem iterator_behavior_witness :
    next decScalar CoordKind.position
      [LineRead.line "1", LineRead.line "c", LineRead.line "H 1.0 2.0 3.0"] =
      some (XYZSnapshot.mk "c" [XYZParticle.mk "H" (Coordinate.position 1 2 3)], []) ∧
    next decScalar CoordKind.position [LineRead.line "oops"] = none :=
  ⟨iterator_behavior.2.1 ℚ decScalar CoordKind.position _ _ (by decide),
   iterator_behavior.2.2 ℚ decScalar CoordKind.position _
     (Error.mk ErrorKind.parseIntError) (by decide)⟩

/-- C7, counterexample: a non-numeric header fails with the
`ParseIntError` kind (through `From<ParseIntError>`), which is not the
`InvalidFormat`/`Format` kind the claim names, and the offending line is
not attached. -/
theorem header_error_counterexample :
    read_snapshot decScalar CoordKind.position
      [LineRead.line "abc", LineRead.line "c"] =
      Except.error (Error.mk ErrorKind.parseIntError) ∧
    ErrorKind.parseIntError.isFormat = false := by
  decide

/-- C7 (amended): a header line that does not parse as a non-negative
integer aborts `read_snapshot` with the `ParseIntError` kind, an error
class that is not `InvalidFormat` and carries no line text. -/
theorem header_parse_error_kind {T : Type} (S : Scalar T) (kind : CoordKind)
    (l1 : String) (rest : List LineRead) (hl : parseUsize (strTrim l1) = none) :
    read_snapshot S kind (LineRead.line l1 :: rest) =
      Except.error (Error.mk ErrorKind.parseIntError) ∧
    (Error.mk ErrorKind.parseIntError).kind.isFormat = false :=
  ⟨read_snapshot_header_fail S kind hl rest, rfl⟩

/-- C7, witness: the header `"abc"`. -/
theorem header_parse_error_kind_witness :
    read_snapshot decScalar CoordKind.position
      [LineRead.line "abc", LineRead.line "c"] =
      Except.error (Error.mk ErrorKind.parseIntError) ∧
    (Error.mk ErrorKind.parseIntError).kind.isFormat = false :=
  header_parse_error_kind decScalar CoordKind.position "abc" [LineRead.line "c"] (by decide)

/-- C8, counterexample: when fewer than N particle lines remain, the
failure is the `InvalidFormat` error produced by parsing the empty
end-of-stream line — not an I/O/EOF-class (`Io`) error as claimed. -/
theorem short_frame_counterexample :
    read_snapshot decScalar CoordKind.position
      [LineRead.line "2", LineRead.line "c", LineRead.line "H 1.0 2.0 3.0"] =
      Except.error (Error.invalid_format "invalid XYZ format: ") ∧
    (Error.invalid_format "invalid XYZ format: ").kind ≠ ErrorKind.io := by
  decide

/-- C8 (amended): a successful `read_snapshot` returns exactly the
declared count N of particles, and when fewer than N well-formed particle
lines remain before end of stream the call fails (with the
`InvalidFormat` error from the empty end-of-stream read) — it never
returns a short snapshot. -/
theorem read_snapshot_no_short {T : Type} (S : Scalar T) (kind : CoordKind) :
    (∀ (st : List LineRead) (snap : XYZSnapshot T) (st' : List LineRead)
      (l1 : String) (N : Nat),
      read_snapshot S kind st = Except.ok (snap, st') →
      st.head? = some (LineRead.line l1) → parseUsize (strTrim l1) = some N →
      snap.particles.length = N) ∧
    (∀ (l1 l2 : String) (rest : List LineRead) (N : Nat),
      parseUsize (strTrim l1) = some N → rest.length < N →
      (∀ r ∈ rest, ∃ s p, r = LineRead.line s ∧
        XYZParticle.from_line S s kind = Except.ok p) →
      read_snapshot S kind (LineRead.line l1 :: LineRead.line l2 :: rest) =
        Except.error (Error.invalid_format "invalid XYZ format: ")) := by
  constructor
  · intro st snap st' l1 N h hhead hN
    obtain ⟨l1', l2, N', ls, hhead', hp', _, _, hlen, _, _, _⟩ :=
      read_snapshot_ok_shape S kind h
    have hll : l1' = l1 := by
      rw [hhead] at hhead'
      simpa using hhead'.symm
    rw [hll, hN] at hp'
    have hNN : N' = N := by
      have := hp'
      simp only [Option.some_inj] at this
      exact this.symm
    rw [hlen, hNN]
  · intro l1 l2 rest N hp hlt hall
    rw [read_snapshot]
    have hph : parseHeader l1 = Except.ok N := by
      rw [parseHeader, hp]
    simp only [readLine, exceptBind_ok, hph,
      readParticles_exhaust S kind rest N hall hlt, exceptBind_err]

/-- C8, witness: both halves at concrete frames. -/
theorem read_snapshot_no_short_witness :
    (XYZSnapshot.mk "c" [XYZParticle.mk "H" (Coordinate.position (1 : ℚ) 2 3)]).particles.length
      = 1 ∧
    read_snapshot decScalar CoordKind.position
      [LineRead.line "2", LineRead.line "c", LineRead.line "H 1.0 2.0 3.0"] =
      Except.error (Error.invalid_format "invalid XYZ format: ") :=
  ⟨(read_snapshot_no_short decScalar CoordKind.position).1
      [LineRead.line "1", LineRead.line "c", LineRead.line "H 1.0 2.0 3.0"]
      (XYZSnapshot.mk "c" [XYZParticle.mk "H" (Coordinate.position 1 2 3)]) [] "1" 1
      (by decide) (by decide) (by decide),
   (read_snapshot_no_short decScalar CoordKind.position).2 "2" "c"
      [LineRead.line "H 1.0 2.0 3.0"] 2 (by decide) (by decide)
      (by
        intro r hr
        rw [List.mem_singleton] at hr
        subst hr
        exact ⟨"H 1.0 2.0 3.0", XYZParticle.mk "H" (Coordinate.position 1 2 3), rfl,
          by decide⟩)⟩

/-- C9, counterexample: the name field is left-justified and padded on
the right, and a long name is not truncated to a fixed field width — the
full 10-character name survives in the emitted line. -/
theorem name_field_counterexample :
    fmtName8 "ABCDEFGHIJ" = "ABCDEFGHIJ" ∧ ("ABCDEFGHIJ" : String).length = 10 ∧
    fmtName8 "H" = "H       " ∧ fmtName8 "H" ≠ "       H" ∧
    XYZParticle.displayLine decScalar
      (XYZParticle.mk "ABCDEFGHIJ" (Coordinate.position (1 : ℚ) 2 3)) =
      "ABCDEFGHIJ 1.0000000000000000 2.0000000000000000 3.0000000000000000" := by
  decide

/-- C9 (amended): `write_snapshot` emits, in order, the count line, the
comment line verbatim, and one `Display` line per particle (provided no
emitted text embeds a newline); the name is left-justified and padded on
the right with spaces to a minimum width of 8 — names of 8 or more
characters are emitted unchanged, never truncated — and the output is a
deterministic function of the snapshot. -/
theorem write_snapshot_layout {T : Type} (S : Scalar T) (ss ss2 : XYZSnapshot T)
    (s8 ssmall : String) (hcm : ∀ c ∈ ss.comment.data, c ≠ '\n')
    (hlines : ∀ p ∈ ss.particles, ∀ c ∈ (XYZParticle.displayLine S p).data, c ≠ '\n')
    (h8 : 8 ≤ s8.length) (hsm : ssmall.length < 8) (heq : ss = ss2) :
    stringToStream (write_snapshot S ss) =
      LineRead.line (natRepr ss.particles.length) :: LineRead.line ss.comment ::
        ss.particles.map (fun p => LineRead.line (XYZParticle.displayLine S p)) ∧
    fmtName8 s8 = s8 ∧
    (fmtName8 ssmall).length = 8 ∧
    fmtName8 ssmall = ssmall ++ String.mk (List.replicate (8 - ssmall.length) ' ') ∧
    write_snapshot S ss = write_snapshot S ss2 := by
  refine ⟨stringToStream_write S ss hcm hlines, ?_, ?_, rfl, by rw [heq]⟩
  · rw [fmtName8, show 8 - s8.length = 0 by omega, List.replicate_zero]
    have : (String.mk [] : String) = "" := rfl
    rw [this]
    exact String.append_empty s8
  · rw [fmtName8]
    have hlen : (String.mk (List.replicate (8 - ssmall.length) ' ')).length =
        8 - ssmall.length := by
      show (List.replicate (8 - ssmall.length) ' ').length = 8 - ssmall.length
      simp
    rw [String.length_append, hlen]
    omega

/-- C9, witness: the layout facts at a concrete snapshot and names. -/
theorem write_snapshot_layout_witness :
    stringToStream (write_snapshot decScalar (XYZSnapshot.mk "c"
      [XYZParticle.mk "H" (Coordinate.position (1 : ℚ) 2 3)])) =
      LineRead.line (natRepr (XYZSnapshot.mk "c"
        [XYZParticle.mk "H" (Coordinate.position (1 : ℚ) 2 3)]).particles.length) ::
      LineRead.line (XYZSnapshot.mk "c"
        [XYZParticle.mk "H" (Coordinate.position (1 : ℚ) 2 3)]).comment ::
      (XYZSnapshot.mk "c" [XYZParticle.mk "H" (Coordinate.position (1 : ℚ) 2 3)]).particles.map
        (fun p => LineRead.line (XYZParticle.displayLine decScalar p)) ∧
    fmtName8 "ABCDEFGHIJ" = "ABCDEFGHIJ" ∧
    (fmtName8 "H").length = 8 ∧
    fmtName8 "H" = "H" ++ String.mk (List.replicate (8 - ("H" : String).length) ' ') ∧
    write_snapshot decScalar (XYZSnapshot.mk "c"
      [XYZParticle.mk "H" (Coordinate.position (1 : ℚ) 2 3)]) =
      write_snapshot decScalar (XYZSnapshot.mk "c"
        [XYZParticle.mk "H" (Coordinate.position (1 : ℚ) 2 3)]) :=
  write_snapshot_layout decScalar _ _ "ABCDEFGHIJ" "H" (by decide) (by decide) (by decide)
    (by decide) rfl

/-- C10: the `FromStr` entry point parses with the Position tag — every
successfully parsed particle has `which() = Position`, `pos` is `some`,
and `vel`/`force` are `none`. -/
theorem from_str_position_tag {T : Type} (S : Scalar T) (line : String)
    (p : XYZParticle T) (h : XYZParticle.from_str S line = Except.ok p) :
    p.xyz.which = CoordKind.position ∧ p.pos.isSome = true ∧
    p.vel = none ∧ p.force = none := by
  rw [XYZParticle.from_str] at h
  obtain ⟨name, x, y, z, rfl⟩ := from_line_ok_build S CoordKind.position h
  simp [Coordinate.build, Coordinate.which, XYZParticle.pos, XYZParticle.vel,
    XYZParticle.force]

/-- C10, witness: the doc-comment example `"H 1.00 1.00 1.00"`. -/
theorem from_str_position_tag_witness :
    (XYZParticle.mk "H" (Coordinate.position (1 : ℚ) 1 1)).xyz.which =
      CoordKind.position ∧
    (XYZParticle.mk "H" (Coordinate.position (1 : ℚ) 1 1)).pos.isSome = true ∧
    (XYZParticle.mk "H" (Coordinate.position (1 : ℚ) 1 1)).vel = none ∧
    (XYZParticle.mk "H" (Coordinate.position (1 : ℚ) 1 1)).force = none :=
  from_str_position_tag decScalar "H 1.00 1.00 1.00"
    (XYZParticle.mk "H" (Coordinate.position 1 1 1)) (by decide)

end Trajan
